import Mathlib

/-!
Shallow embedding of the study-tracking repository (stremlitquestionbank).

The embedding covers the parts of the code the claims are about:
the two streak computations (StudyAnalyzer._calculate_streak in
study_analyzer.py and calculate_stats in Neet.py), the consistency
scores (StudyAnalyzer._calculate_consistency_score and the inline
computation in show_progress_analysis), the subject-balance
percentages (StudyAnalyzer._analyze_subject_balance and the dashboard
percentage column), the weekly-target progress percentages in
show_target_setting, DataManager.save_data / load_data /
validate_study_entry, and AuthManager.authenticate_user.

Python floats are modelled as rationals; numpy / Python banker
rounding (round half to even) is modelled exactly on rationals.
Dates are modelled as integer day numbers (the code only ever takes
differences of dates in days and compares them), and a study-log
DataFrame row after the numeric preprocessing of the source is
modelled as a record with an integer date, a subject string and a
rational duration.
-/

/-- One row of the study-log table after the numeric preprocessing of
study_analyzer.py / Neet.py: date as a day number, subject, and the
already-parsed numeric study duration in hours. -/
structure Row where
  date : Int
  subject : String
  duration : Rat
deriving DecidableEq

/-- Round half to even to an integer, the rounding used by Python
round and by numpy (pandas .round). -/
def rhe (x : Rat) : Int :=
  if x - ⌊x⌋ < 1/2 then ⌊x⌋
  else if 1/2 < x - ⌊x⌋ then ⌊x⌋ + 1
  else if ⌊x⌋ % 2 = 0 then ⌊x⌋ else ⌊x⌋ + 1

/-- Python round(x, 2) / pandas .round(2) on the rational model. -/
def round2 (x : Rat) : Rat := ((rhe (x * 100) : Int) : Rat) / 100

/-- Python round(x, 1) / pandas .round(1) on the rational model. -/
def round1 (x : Rat) : Rat := ((rhe (x * 10) : Int) : Rat) / 10

/-- Maximum of a list of integers (df column .max()); 0 on the empty
list, which the code never queries. -/
def listMax : List Int → Int
  | [] => 0
  | a :: l => l.foldl max a

/-- Minimum of a list of integers (df column .min()); 0 on the empty
list, which the code never queries. -/
def listMin : List Int → Int
  | [] => 0
  | a :: l => l.foldl min a

/-- sorted(df[Date].dt.date.unique()): the distinct study dates in
ascending order.  Python unique keeps first occurrences and List.dedup
keeps last occurrences, but after sorting both give the same list (the
distinct values in ascending order). -/
def studyDates (es : List Row) : List Int :=
  List.insertionSort (· ≤ ·) (es.map Row.date).dedup

/-- The loop of StudyAnalyzer._calculate_streak: walk the ascending
date list from the oldest date forward, adding one while the next date
is exactly one day later, and stop at the first gap. -/
def streak_walk_fwd : List Int → Nat
  | [] => 0
  | [_] => 1
  | a :: b :: rest => if b - a = 1 then streak_walk_fwd (b :: rest) + 1 else 1

/-- The loop of calculate_stats in Neet.py: walk the date list from
the most recent date backward (the input here is the ascending date
list reversed, so it is descending), adding one while each date is
exactly one day before its predecessor, and stop at the first gap. -/
def streak_walk_bwd : List Int → Nat
  | [] => 0
  | [_] => 1
  | a :: b :: rest => if a - b = 1 then streak_walk_bwd (b :: rest) + 1 else 1

namespace StudyAnalyzer

/-- StudyAnalyzer._calculate_streak (study_analyzer.py lines 51-65). -/
def _calculate_streak (es : List Row) : Nat :=
  if es = [] then 0 else streak_walk_fwd (studyDates es)

/-- StudyAnalyzer._calculate_consistency_score (study_analyzer.py
lines 188-202): distinct study days divided by the length in days of
the observed date range, times 100, rounded to two decimals; 0 for an
empty history. -/
def _calculate_consistency_score (es : List Row) : Rat :=
  if es = [] then 0 else
    let dates := es.map Row.date
    let days_studied : Nat := dates.dedup.length
    let date_range : Int := listMax dates - listMin dates + 1
    round2 (if 0 < date_range then (days_studied : Rat) / (date_range : Rat) * 100 else 0)

/-- Summed study duration of the rows whose subject is s
(groupby(Subject)[Study Duration].sum() for one group). -/
def group_sum (es : List Row) (s : String) : Rat :=
  ((es.filter fun r => r.subject == s).map Row.duration).sum

/-- The distinct subjects occurring in the data, one entry per
groupby group. -/
def subjects (es : List Row) : List String :=
  (es.map Row.subject).dedup

/-- StudyAnalyzer._analyze_subject_balance (study_analyzer.py lines
161-173): per-subject share of the total study duration in percent,
rounded to two decimals; empty when the data is empty or the total
duration is zero.  pandas orders the groups by key; the group order is
irrelevant to the claims, so the first-occurrence order is kept. -/
def _analyze_subject_balance (es : List Row) : List (String × Rat) :=
  if es = [] then [] else
    let total := ((es.map Row.duration).sum : Rat)
    if total = 0 then []
    else (subjects es).map fun s => (s, round2 (group_sum es s / total * 100))

end StudyAnalyzer

namespace NeetApp

/-- The streak computed by calculate_stats (Neet.py lines 125-178):
0 when there is no data, otherwise the backward walk over the sorted
unique dates starting from the most recent one. -/
def calculate_stats_streak (es : List Row) : Nat :=
  if es = [] then 0 else streak_walk_bwd (studyDates es).reverse

/-- The consistency value computed inline by show_progress_analysis
(Neet.py lines 476-483): distinct study days divided by the length in
days of the observed date range, times 100, NOT rounded.  The page
only computes it for nonempty data; 0 is used for the empty case to
make the function total. -/
def show_progress_analysis_consistency (es : List Row) : Rat :=
  if es = [] then 0 else
    let dates := es.map Row.date
    let days_studied : Nat := dates.dedup.length
    let total_days : Int := listMax dates - listMin dates + 1
    if 0 < total_days then (days_studied : Rat) / (total_days : Rat) * 100 else 0

/-- The dashboard percentage column (Neet.py line 244):
(subject hours / total hours * 100).round(1), computed only when the
total is positive (else the dashboard shows an info message). -/
def dashboard_subject_percentage (es : List Row) : List (String × Rat) :=
  let total := ((es.map Row.duration).sum : Rat)
  if 0 < total then
    (StudyAnalyzer.subjects es).map fun s =>
      (s, round1 (StudyAnalyzer.group_sum es s / total * 100))
  else []

/-- Python int(): truncation of a rational toward zero. -/
def py_int (q : Rat) : Int := if 0 ≤ q then q.floor else -((-q).floor)

/-- Python min of two integers. -/
def py_min (a b : Int) : Int := if a ≤ b then a else b

/-- hours_percent in show_target_setting (Neet.py line 905):
min(100, int(current / target * 100 if target > 0 else 0)). -/
def hours_percent (current target : Rat) : Int :=
  py_min 100 (py_int (if 0 < target then current / target * 100 else 0))

/-- questions_percent in show_target_setting (Neet.py line 906); the
current and target question counts are integers and the division is
Python true division. -/
def questions_percent (current target : Int) : Int :=
  py_min 100 (py_int (if 0 < target then (current : Rat) / (target : Rat) * 100 else 0))

end NeetApp

/-- A JSON value as handled by the Python json module. -/
inductive PyJson where
  | null
  | bool (b : Bool)
  | num (q : Rat)
  | str (s : String)
  | arr (xs : List PyJson)
  | obj (kvs : List (String × PyJson))

/-- The content of a file: a successfully serialized JSON document, or
a truncated / partially written file that json.load cannot parse. -/
inductive FileData where
  | good (j : PyJson)
  | corrupt

/-- The file system as seen through os.path.exists / open / os.replace
/ os.remove: a map from paths to file contents. -/
def FS := String → Option FileData

/-- Point update of the file-system map (none deletes the file). -/
def fs_set (fs : FS) (p : String) (v : Option FileData) : FS :=
  fun q => if q = p then v else fs q

namespace DataManager

/-- One record of a collection: a JSON object, i.e. a Python dict
with string keys. -/
abbrev Record := List (String × PyJson)

/-- os.path.join(self.data_dir, filename) for a relative filename. -/
def file_path (data_dir filename : String) : String := data_dir ++ "/" ++ filename

/-- json.dump of a list of records. -/
def records_to_json (data : List Record) : PyJson := .arr (data.map PyJson.obj)

/-- Read a parsed JSON array back as a list of records. -/
def objs_of : List PyJson → Option (List Record)
  | [] => some []
  | PyJson.obj kvs :: rest => (objs_of rest).map (kvs :: ·)
  | _ => none

/-- Read a parsed JSON document back as a list of records. -/
def records_of_json : PyJson → Option (List Record)
  | PyJson.arr xs => objs_of xs
  | _ => none

/-- DataManager.load_data (data_manager.py lines 29-39): returns the
parsed JSON document of the file when it exists and parses, and the
empty list when the file is absent or any exception occurs. -/
def load_data (data_dir : String) (fs : FS) (filename : String) : PyJson :=
  match fs (file_path data_dir filename) with
  | none => .arr []
  | some .corrupt => .arr []
  | some (.good j) => j

/-- DataManager.save_data (data_manager.py lines 41-65).  write_ok
says whether the write of the new content succeeds or raises; when it
raises, the file opened for writing is left behind unparsable and the
except branch restores the backup if one exists. -/
def save_data (data_dir : String) (fs : FS) (filename : String)
    (data : List Record) (write_ok : Bool) : Bool × FS :=
  let fp := file_path data_dir filename
  let bp := fp ++ ".backup"
  let fs1 : FS :=
    match fs fp with
    | some c => fs_set (fs_set fs bp (some c)) fp none
    | none => fs
  if write_ok then
    let fs2 := fs_set fs1 fp (some (.good (records_to_json data)))
    let fs3 : FS :=
      match fs2 bp with
      | some _ => fs_set fs2 bp none
      | none => fs2
    (true, fs3)
  else
    let fs2 := fs_set fs1 fp (some .corrupt)
    let fs3 : FS :=
      match fs2 bp with
      | some c => fs_set (fs_set fs2 fp (some c)) bp none
      | none => fs2
    (false, fs3)

/-- The two uncaught exceptions validate_study_entry can raise. -/
inductive PyErr where
  | typeError
  | indexError
deriving DecidableEq

instance : DecidableEq (Except PyErr Bool) :=
  fun a b =>
    match a, b with
    | .ok x, .ok y =>
      if h : x = y then .isTrue (h ▸ rfl) else .isFalse (by simp [h])
    | .error x, .error y =>
      if h : x = y then .isTrue (h ▸ rfl) else .isFalse (by simp [h])
    | .ok _, .error _ => .isFalse (fun hh => Except.noConfusion hh)
    | .error _, .ok _ => .isFalse (fun hh => Except.noConfusion hh)

/-- A Python float: a finite value (modelled as a rational), nan, or
a signed infinity. -/
inductive PFloat where
  | fin (q : Rat)
  | nan
  | inf
  | ninf
deriving DecidableEq

/-- Comparison float < rational, with the usual nan semantics. -/
def pf_lt (x : PFloat) (r : Rat) : Bool :=
  match x with
  | .fin q => decide (q < r)
  | .nan => false
  | .inf => false
  | .ninf => true

/-- Comparison float > rational, with the usual nan semantics. -/
def pf_gt (x : PFloat) (r : Rat) : Bool :=
  match x with
  | .fin q => decide (r < q)
  | .nan => false
  | .inf => true
  | .ninf => false

/-- Numeric value of an ASCII digit. -/
def digit_val (c : Char) : Nat := c.toNat - 48

/-- Characters allowed inside a Python float digit run: digits and
the underscore separators. -/
def is_run_char (c : Char) : Bool := c.isDigit || c == '_'

/-- After an initial digit, a digit run may continue with digits, and
each underscore must be followed by a digit. -/
def run_tail_ok : List Char → Bool
  | [] => true
  | '_' :: c :: rest => c.isDigit && run_tail_ok rest
  | ['_'] => false
  | c :: rest => c.isDigit && run_tail_ok rest

/-- A valid digit run: nonempty, starts with a digit, underscores only
between digits. -/
def run_ok (cs : List Char) : Bool :=
  match cs with
  | [] => false
  | c :: rest => c.isDigit && run_tail_ok rest

/-- Numeric value of a digit run, ignoring the underscores. -/
def run_val (cs : List Char) : Nat :=
  (cs.filter Char.isDigit).foldl (fun a c => a * 10 + digit_val c) 0

/-- Number of digits in a digit run. -/
def run_len (cs : List Char) : Nat := (cs.filter Char.isDigit).length

/-- The exponent part of a Python float literal: optional sign, then a
digit run consuming the whole remainder. -/
def parse_exp (mant : Rat) (cs : List Char) : Option Rat :=
  let p :=
    match cs with
    | '+' :: r => (false, r)
    | '-' :: r => (true, r)
    | _ => (false, cs)
  let er := p.2.takeWhile is_run_char
  let rest := p.2.dropWhile is_run_char
  if run_ok er ∧ rest = [] then
    some (if p.1 then mant / (10 : Rat) ^ run_val er else mant * (10 : Rat) ^ run_val er)
  else none

/-- An unsigned Python decimal float literal: digits with optional
point, fraction and exponent, as accepted by float(). -/
def parse_decimal (cs : List Char) : Option Rat :=
  let ip := cs.takeWhile is_run_char
  let rest1 := cs.dropWhile is_run_char
  if ip ≠ [] ∧ run_ok ip = false then none
  else
    let q :=
      match rest1 with
      | '.' :: r => (r.takeWhile is_run_char, r.dropWhile is_run_char)
      | _ => (([] : List Char), rest1)
    if q.1 ≠ [] ∧ run_ok q.1 = false then none
    else if ip = [] ∧ q.1 = [] then none
    else
      let mant : Rat := (run_val ip : Rat) + (run_val q.1 : Rat) / (10 : Rat) ^ run_len q.1
      match q.2 with
      | [] => some mant
      | 'e' :: r3 => parse_exp mant r3
      | 'E' :: r3 => parse_exp mant r3
      | _ => none

/-- Python float(token) for a whitespace-free token: optional sign,
then inf / infinity / nan (case-insensitive) or a decimal literal. -/
def parse_float (cs : List Char) : Option PFloat :=
  let p :=
    match cs with
    | '+' :: r => (false, r)
    | '-' :: r => (true, r)
    | _ => (false, cs)
  let low := p.2.map Char.toLower
  if low = ['i', 'n', 'f'] ∨ low = ['i', 'n', 'f', 'i', 'n', 'i', 't', 'y'] then
    some (if p.1 then .ninf else .inf)
  else if low = ['n', 'a', 'n'] then some .nan
  else
    match parse_decimal p.2 with
    | some q => some (.fin (if p.1 then -q else q))
    | none => none

/-- Numeric value of a pure digit string. -/
def nat_of_digits (cs : List Char) : Nat :=
  cs.foldl (fun a c => a * 10 + digit_val c) 0

/-- Gregorian leap-year rule, as used by datetime. -/
def leap_year (y : Nat) : Bool :=
  y % 4 == 0 && (!(y % 100 == 0) || y % 400 == 0)

/-- Number of days of month m in year y, as used by datetime. -/
def days_in_month (y m : Nat) : Nat :=
  if m = 2 then (if leap_year y then 29 else 28)
  else if m = 4 ∨ m = 6 ∨ m = 9 ∨ m = 11 then 30
  else 31

/-- All characters are ASCII digits. -/
def all_digits (cs : List Char) : Bool := cs.all Char.isDigit

/-- Split a character list at every separator character, keeping the
empty pieces (the behaviour of Python split with an explicit one-char
separator). -/
def split_at_char (sep : Char) : List Char → List (List Char)
  | [] => [[]]
  | c :: rest =>
    match split_at_char sep rest with
    | [] => [[c]]
    | t :: ts => if c = sep then [] :: t :: ts else (c :: t) :: ts

/-- datetime.strptime(s, f) for the format Y-m-d: the strptime regex
asks for a 4-digit year, a 1-2 digit month and a 1-2 digit day
separated by literal dashes and consuming the whole string, and the
datetime constructor then validates the calendar date (year at least
1, month 1-12, day within the month). -/
def parse_date (s : String) : Option (Nat × Nat × Nat) :=
  match split_at_char '-' s.toList with
  | [yl, ml, dl] =>
    if all_digits yl ∧ yl.length = 4
        ∧ all_digits ml ∧ (ml.length = 1 ∨ ml.length = 2)
        ∧ all_digits dl ∧ (dl.length = 1 ∨ dl.length = 2) then
      let y := nat_of_digits yl
      let m := nat_of_digits ml
      let d := nat_of_digits dl
      if 1 ≤ y ∧ 1 ≤ m ∧ m ≤ 12 ∧ 1 ≤ d ∧ d ≤ days_in_month y m then
        some (y, m, d)
      else none
    else none
  | _ => none

/-- The whitespace characters recognised by Python str.split(). -/
def py_isspace (c : Char) : Bool :=
  c = ' ' ∨ c = '\t' ∨ c = '\n' ∨ c = '\r' ∨ c.toNat = 11 ∨ c.toNat = 12

/-- Split a character list at every character satisfying p, keeping
the empty pieces. -/
def split_when (p : Char → Bool) : List Char → List (List Char)
  | [] => [[]]
  | c :: rest =>
    match split_when p rest with
    | [] => [[c]]
    | t :: ts => if p c then [] :: t :: ts else (c :: t) :: ts

/-- Python str.split() with no argument: split on whitespace runs,
discarding empty tokens. -/
def split_tokens (s : String) : List (List Char) :=
  (split_when py_isspace s.toList).filter (fun t => t ≠ [])

/-- A candidate entry: a Python dict with string keys and JSON
values. -/
abbrev Entry := List (String × PyJson)

/-- Whether a JSON value is a Python string. -/
def is_str : PyJson → Bool
  | .str _ => true
  | _ => false

/-- The fixed subject set of validate_study_entry. -/
def valid_subjects : List String := ["Physics", "Chemistry", "Botany", "Zoology"]

/-- The membership test entry[Subject] in valid_subjects: only string
values can be members of a list of strings. -/
def subject_in_valid (v : PyJson) : Bool :=
  match v with
  | .str s => valid_subjects.contains s
  | _ => false

/-- DataManager.validate_study_entry (data_manager.py lines 67-94).
The result is ok b for a normal boolean return and error e for the
exceptions the except clauses do not catch: strptime raises TypeError
on a non-string date (only ValueError is caught), and split()[0] on a
tokenless duration string raises IndexError (only ValueError and
AttributeError are caught). -/
def validate_study_entry (e : Entry) : Except PyErr Bool :=
  match List.lookup "Date" e, List.lookup "Subject" e, List.lookup "Study Duration" e with
  | some dv, some sv, some uv =>
    match dv with
    | .str ds =>
      if parse_date ds = none then .ok false
      else if subject_in_valid sv = false then .ok false
      else
        match uv with
        | .str us =>
          match split_tokens us with
          | [] => .error .indexError
          | t :: _ =>
            match parse_float t with
            | none => .ok false
            | some x => if pf_lt x 0 || pf_gt x 24 then .ok false else .ok true
        | _ => .ok false
    | _ => .error .typeError
  | _, _, _ => .ok false

end DataManager

namespace AuthManager

/-- One record of the user map of auth_manager.py; timestamps are in
minutes. -/
structure AuthUser where
  password : String
  email : String
  created_at : Int
  last_login : Option Int
  failed_attempts : Nat
  locked_until : Option Int

/-- The user map self.users. -/
def AuthDB := String → Option AuthUser

/-- Point update of the user map. -/
def db_set (db : AuthDB) (u : String) (usr : AuthUser) : AuthDB :=
  fun x => if x = u then some usr else db x

/-- Result of authenticate_user: success flag, message, optional JWT
token (modelled by its payload: username and expiry), and the user
map after the call. -/
structure AuthResult where
  ok : Bool
  msg : String
  token : Option (String × Int)
  db : AuthDB

/-- The lockout test: locked_until is set (truthy) and lies in the
future. -/
def is_locked (u : AuthUser) (now : Int) : Bool :=
  match u.locked_until with
  | some t => decide (now < t)
  | none => false

/-- AuthManager.authenticate_user (auth_manager.py lines 72-107),
with the hash function abstracted. -/
def authenticate_user (hash : String → String) (db : AuthDB)
    (username password : String) (now : Int) : AuthResult :=
  match db username with
  | none => ⟨false, "Invalid username or password", none, db⟩
  | some user =>
    if is_locked user now then
      ⟨false, "Account is locked. Please try again later.", none, db⟩
    else if user.password ≠ hash password then
      let fa := user.failed_attempts + 1
      if 5 ≤ fa then
        ⟨false, "Account locked due to too many failed attempts. Please try again in 30 minutes.",
          none, db_set db username { user with failed_attempts := fa, locked_until := some (now + 30) }⟩
      else
        ⟨false, "Invalid username or password", none,
          db_set db username { user with failed_attempts := fa }⟩
    else
      ⟨true, "Authentication successful", some (username, now + 1440),
        db_set db username { user with failed_attempts := 0, last_login := some now }⟩

end AuthManager

/-! ## General lemmas about the rounding model -/

theorem rhe_abs_le (x : Rat) : |((rhe x : Int) : Rat) - x| ≤ 1/2 := by
  have h1 : ((⌊x⌋ : Int) : Rat) ≤ x := Int.floor_le x
  have h2 : x < (⌊x⌋ : Int) + 1 := Int.lt_floor_add_one x
  unfold rhe
  split_ifs with ha hb hc <;> rw [abs_le] <;> push_cast <;> constructor <;> linarith

theorem round2_sub (x : Rat) : round2 x - x = (((rhe (x * 100) : Int) : Rat) - x * 100) / 100 := by
  rw [round2]; ring

theorem round1_sub (x : Rat) : round1 x - x = (((rhe (x * 10) : Int) : Rat) - x * 10) / 10 := by
  rw [round1]; ring

theorem round2_abs_le (x : Rat) : |round2 x - x| ≤ 1/200 := by
  have h := rhe_abs_le (x * 100)
  rw [round2_sub, abs_div]
  have h100 : |(100 : Rat)| = 100 := by norm_num
  rw [h100]
  linarith [abs_nonneg (((rhe (x * 100) : Int) : Rat) - x * 100)]

theorem round1_abs_le (x : Rat) : |round1 x - x| ≤ 1/20 := by
  have h := rhe_abs_le (x * 10)
  rw [round1_sub, abs_div]
  have h10 : |(10 : Rat)| = 10 := by norm_num
  rw [h10]
  linarith [abs_nonneg (((rhe (x * 10) : Int) : Rat) - x * 10)]

/-! ## Lemmas about the file-system model and save_data / load_data -/

theorem backup_ne (p : String) : p ++ ".backup" ≠ p := by
  intro h
  have hl := congrArg String.length h
  rw [String.length_append] at hl
  have h7 : ".backup".length = 7 := rfl
  omega

theorem ne_backup (p : String) : p ≠ p ++ ".backup" := fun h => backup_ne p h.symm

namespace DataManager

theorem save_data_true_fst (dd : String) (fs : FS) (fn : String) (data : List Record) :
    (save_data dd fs fn data true).1 = true := rfl

theorem save_data_false_fst (dd : String) (fs : FS) (fn : String) (data : List Record) :
    (save_data dd fs fn data false).1 = false := rfl

theorem save_data_true_file (dd : String) (fs : FS) (fn : String) (data : List Record) :
    (save_data dd fs fn data true).2 (file_path dd fn)
      = some (.good (records_to_json data)) := by
  rcases h1 : fs (file_path dd fn) with _ | c <;>
    rcases h2 : fs (file_path dd fn ++ ".backup") with _ | c2 <;>
      simp [save_data, h1, h2, fs_set, backup_ne, ne_backup]

theorem save_data_true_backup (dd : String) (fs : FS) (fn : String) (data : List Record) :
    (save_data dd fs fn data true).2 (file_path dd fn ++ ".backup") = none := by
  rcases h1 : fs (file_path dd fn) with _ | c <;>
    rcases h2 : fs (file_path dd fn ++ ".backup") with _ | c2 <;>
      simp [save_data, h1, h2, fs_set, backup_ne, ne_backup]

theorem save_data_true_other (dd : String) (fs : FS) (fn : String) (data : List Record)
    (p : String) (hp1 : p ≠ file_path dd fn) (hp2 : p ≠ file_path dd fn ++ ".backup") :
    (save_data dd fs fn data true).2 p = fs p := by
  rcases h1 : fs (file_path dd fn) with _ | c <;>
    rcases h2 : fs (file_path dd fn ++ ".backup") with _ | c2 <;>
      simp [save_data, h1, h2, fs_set, backup_ne, ne_backup, hp1, hp2]

theorem save_data_false_file (dd : String) (fs : FS) (fn : String) (data : List Record)
    (c : FileData) (h1 : fs (file_path dd fn) = some c) :
    (save_data dd fs fn data false).2 (file_path dd fn) = some c := by
  simp [save_data, h1, fs_set, backup_ne, ne_backup]

theorem save_data_false_backup (dd : String) (fs : FS) (fn : String) (data : List Record)
    (hbp : fs (file_path dd fn ++ ".backup") = none) :
    (save_data dd fs fn data false).2 (file_path dd fn ++ ".backup") = none := by
  rcases h1 : fs (file_path dd fn) with _ | c <;>
    simp [save_data, h1, hbp, fs_set, backup_ne, ne_backup]

theorem save_data_false_other (dd : String) (fs : FS) (fn : String) (data : List Record)
    (p : String) (hp1 : p ≠ file_path dd fn) (hp2 : p ≠ file_path dd fn ++ ".backup") :
    (save_data dd fs fn data false).2 p = fs p := by
  rcases h1 : fs (file_path dd fn) with _ | c <;>
    rcases h2 : fs (file_path dd fn ++ ".backup") with _ | c2 <;>
      simp [save_data, h1, h2, fs_set, backup_ne, ne_backup, hp1, hp2]

theorem save_data_false_load (dd : String) (fs : FS) (fn : String) (data : List Record)
    (hbp : fs (file_path dd fn ++ ".backup") = none) :
    load_data dd (save_data dd fs fn data false).2 fn = load_data dd fs fn := by
  rcases h1 : fs (file_path dd fn) with _ | c <;>
    simp [save_data, load_data, h1, hbp, fs_set, backup_ne, ne_backup]

theorem objs_of_map_obj (rs : List Record) : objs_of (rs.map PyJson.obj) = some rs := by
  induction rs with
  | nil => rfl
  | cons kvs rest ih => simp [objs_of, ih]

theorem records_of_to_json (rs : List Record) :
    records_of_json (records_to_json rs) = some rs := by
  simp [records_of_json, records_to_json, objs_of_map_obj]

end DataManager

theorem rat_floor_int_floor (q : Rat) : q.floor = ⌊q⌋ := rfl

namespace NeetApp

theorem py_int_nonneg (q : Rat) (h : 0 ≤ q) : 0 ≤ py_int q := by
  unfold py_int
  rw [if_pos h, rat_floor_int_floor]
  exact Int.floor_nonneg.mpr h

theorem py_min_le_left (a b : Int) : py_min a b ≤ a := by
  unfold py_min
  split_ifs with h
  · exact le_refl a
  · exact le_of_not_le h

theorem py_min_nonneg (a b : Int) (ha : 0 ≤ a) (hb : 0 ≤ b) : 0 ≤ py_min a b := by
  unfold py_min
  split_ifs <;> assumption

end NeetApp

/-- C3: for every collection name and record list, a successful save
writes the new content at the file path, leaves no backup file behind
and touches no other path, returning true; a failing write returns
false and, provided no stale backup file exists (an invariant both
outcomes of save reestablish), the previously stored file is restored
from its backup, the collection read back is unchanged, and again no
backup file is left behind and no other path is touched. -/
theorem claim_C3 (dd : String) (fs : FS) (fn : String) (data : List DataManager.Record) :
    ((DataManager.save_data dd fs fn data true).1 = true
      ∧ (DataManager.save_data dd fs fn data true).2 (DataManager.file_path dd fn)
          = some (.good (DataManager.records_to_json data))
      ∧ (DataManager.save_data dd fs fn data true).2 (DataManager.file_path dd fn ++ ".backup") = none
      ∧ ∀ p, p ≠ DataManager.file_path dd fn → p ≠ DataManager.file_path dd fn ++ ".backup" →
          (DataManager.save_data dd fs fn data true).2 p = fs p)
    ∧ ((DataManager.save_data dd fs fn data false).1 = false
      ∧ (fs (DataManager.file_path dd fn ++ ".backup") = none →
          (∀ c, fs (DataManager.file_path dd fn) = some c →
              (DataManager.save_data dd fs fn data false).2 (DataManager.file_path dd fn) = some c)
          ∧ DataManager.load_data dd (DataManager.save_data dd fs fn data false).2 fn
              = DataManager.load_data dd fs fn
          ∧ (DataManager.save_data dd fs fn data false).2 (DataManager.file_path dd fn ++ ".backup") = none)
      ∧ ∀ p, p ≠ DataManager.file_path dd fn → p ≠ DataManager.file_path dd fn ++ ".backup" →
          (DataManager.save_data dd fs fn data false).2 p = fs p) :=
  ⟨⟨DataManager.save_data_true_fst dd fs fn data,
    DataManager.save_data_true_file dd fs fn data,
    DataManager.save_data_true_backup dd fs fn data,
    fun p hp1 hp2 => DataManager.save_data_true_other dd fs fn data p hp1 hp2⟩,
   ⟨DataManager.save_data_false_fst dd fs fn data,
    fun hbp =>
      ⟨fun c hc => DataManager.save_data_false_file dd fs fn data c hc,
       DataManager.save_data_false_load dd fs fn data hbp,
       DataManager.save_data_false_backup dd fs fn data hbp⟩,
    fun p hp1 hp2 => DataManager.save_data_false_other dd fs fn data p hp1 hp2⟩⟩

theorem claim_C3_witness :
    (DataManager.save_data "data" (fun _ => none) "x.json" [[("k", PyJson.str "v")]] true).2 "other" = none
    ∧ DataManager.load_data "data"
        (DataManager.save_data "data" (fun _ => none) "x.json" [[("k", PyJson.str "v")]] false).2 "x.json"
      = DataManager.load_data "data" (fun _ => none) "x.json" :=
  ⟨(claim_C3 "data" (fun _ => none) "x.json" [[("k", PyJson.str "v")]]).1.2.2.2 "other"
      (by decide) (by decide),
   ((claim_C3 "data" (fun _ => none) "x.json" [[("k", PyJson.str "v")]]).2.2.1 rfl).2.1⟩

/-- C4: a successful save of a collection followed by a load of the
same name returns exactly the serialized collection, and decoding it
gives back a collection structurally equal to the one saved. -/
theorem claim_C4 (dd : String) (fs : FS) (fn : String) (data : List DataManager.Record) :
    (DataManager.save_data dd fs fn data true).1 = true
    ∧ DataManager.load_data dd (DataManager.save_data dd fs fn data true).2 fn
        = DataManager.records_to_json data
    ∧ DataManager.records_of_json (DataManager.records_to_json data) = some data :=
  ⟨DataManager.save_data_true_fst dd fs fn data,
   by rw [DataManager.load_data, DataManager.save_data_true_file],
   DataManager.records_of_to_json data⟩

/-- C7: the claim says validate always returns a boolean and never
raises; the code raises an uncaught IndexError on an entry whose
Study Duration string has no whitespace-separated tokens, because
split()[0] fails with IndexError and only ValueError and
AttributeError are caught. -/
theorem claim_C7_failing :
    DataManager.validate_study_entry
        [("Date", PyJson.str "2025-03-04"), ("Subject", PyJson.str "Botany"),
         ("Study Duration", PyJson.str "")]
      = .error .indexError := by decide

/-- C8 as stated is false: the percentage is only clamped from above
by min(100, ...); a negative current value produces a negative
percentage, not one in [0,100]. -/
theorem claim_C8_cex :
    NeetApp.hours_percent (-5) 10 = -50 ∧ NeetApp.hours_percent (-5) 10 < 0 := by
  with_unfolding_all decide

/-- C8 amended: the progress percentage is truncated to an integer and
clamped from above to 100; a nonpositive target yields 0; for a
nonnegative current value the result lies in [0,100]; and
progress(5,10) = 50, progress(20,10) = 100, progress(5,0) = 0 for both
the hours and the questions percentage. -/
theorem claim_C8 :
    (∀ current target : Rat, 0 ≤ current →
        0 ≤ NeetApp.hours_percent current target
        ∧ NeetApp.hours_percent current target ≤ 100
        ∧ (target ≤ 0 → NeetApp.hours_percent current target = 0))
    ∧ (∀ current target : Int, 0 ≤ current →
        0 ≤ NeetApp.questions_percent current target
        ∧ NeetApp.questions_percent current target ≤ 100
        ∧ (target ≤ 0 → NeetApp.questions_percent current target = 0))
    ∧ NeetApp.hours_percent 5 10 = 50 ∧ NeetApp.hours_percent 20 10 = 100
    ∧ NeetApp.hours_percent 5 0 = 0
    ∧ NeetApp.questions_percent 5 10 = 50 ∧ NeetApp.questions_percent 20 10 = 100
    ∧ NeetApp.questions_percent 5 0 = 0 := by
  refine ⟨?_, ?_, by with_unfolding_all decide, by with_unfolding_all decide,
    by with_unfolding_all decide, by with_unfolding_all decide,
    by with_unfolding_all decide, by with_unfolding_all decide⟩
  · intro current target hc
    by_cases ht : 0 < target
    · have hq : 0 ≤ current / target * 100 := by positivity
      unfold NeetApp.hours_percent
      rw [if_pos ht]
      refine ⟨NeetApp.py_min_nonneg _ _ (by norm_num) (NeetApp.py_int_nonneg _ hq),
        NeetApp.py_min_le_left _ _, ?_⟩
      intro habs
      exact absurd ht (not_lt.mpr habs)
    · unfold NeetApp.hours_percent
      rw [if_neg ht]
      refine ⟨by with_unfolding_all decide, by with_unfolding_all decide,
        fun _ => by with_unfolding_all decide⟩
  · intro current target hc
    by_cases ht : 0 < target
    · have hc2 : (0 : Rat) ≤ (current : Rat) := by exact_mod_cast hc
      have ht2 : (0 : Rat) < (target : Rat) := by exact_mod_cast ht
      have hq : 0 ≤ (current : Rat) / (target : Rat) * 100 := by positivity
      unfold NeetApp.questions_percent
      rw [if_pos ht]
      refine ⟨NeetApp.py_min_nonneg _ _ (by norm_num) (NeetApp.py_int_nonneg _ hq),
        NeetApp.py_min_le_left _ _, ?_⟩
      intro habs
      exact absurd ht (not_lt.mpr habs)
    · unfold NeetApp.questions_percent
      rw [if_neg ht]
      refine ⟨by with_unfolding_all decide, by with_unfolding_all decide,
        fun _ => by with_unfolding_all decide⟩

theorem claim_C8_witness :
    0 ≤ NeetApp.hours_percent 7 2 ∧ NeetApp.hours_percent 7 2 ≤ 100
    ∧ 0 ≤ NeetApp.questions_percent 7 9 ∧ NeetApp.questions_percent 7 9 ≤ 100 :=
  ⟨(claim_C8.1 7 2 (by norm_num)).1, (claim_C8.1 7 2 (by norm_num)).2.1,
   (claim_C8.2.1 7 9 (by norm_num)).1, (claim_C8.2.1 7 9 (by norm_num)).2.1⟩

/-! ## Characterization of the two streak walks -/

theorem streak_walk_fwd_pos (l : List Int) (a : Int) : 1 ≤ streak_walk_fwd (a :: l) := by
  cases l with
  | nil => simp [streak_walk_fwd]
  | cons b t =>
    by_cases hab : b - a = 1 <;> simp [streak_walk_fwd, hab]

theorem streak_walk_fwd_le (l : List Int) (a : Int) :
    streak_walk_fwd (a :: l) ≤ (a :: l).length := by
  induction l generalizing a with
  | nil => simp [streak_walk_fwd]
  | cons b t ih =>
    by_cases hab : b - a = 1
    · have h1 : streak_walk_fwd (a :: b :: t) = streak_walk_fwd (b :: t) + 1 := by
        simp [streak_walk_fwd, hab]
      have h2 := ih b
      simp only [List.length_cons] at h2 ⊢
      omega
    · have h1 : streak_walk_fwd (a :: b :: t) = 1 := by
        simp [streak_walk_fwd, hab]
      simp [h1]

theorem streak_walk_bwd_pos (l : List Int) (a : Int) : 1 ≤ streak_walk_bwd (a :: l) := by
  cases l with
  | nil => simp [streak_walk_bwd]
  | cons b t =>
    by_cases hab : a - b = 1 <;> simp [streak_walk_bwd, hab]

theorem streak_walk_bwd_le (l : List Int) (a : Int) :
    streak_walk_bwd (a :: l) ≤ (a :: l).length := by
  induction l generalizing a with
  | nil => simp [streak_walk_bwd]
  | cons b t ih =>
    by_cases hab : a - b = 1
    · have h1 : streak_walk_bwd (a :: b :: t) = streak_walk_bwd (b :: t) + 1 := by
        simp [streak_walk_bwd, hab]
      have h2 := ih b
      simp only [List.length_cons] at h2 ⊢
      omega
    · have h1 : streak_walk_bwd (a :: b :: t) = 1 := by
        simp [streak_walk_bwd, hab]
      simp [h1]

theorem streak_walk_fwd_char (l : List Int) (a : Int) :
    (∀ j, j < streak_walk_fwd (a :: l) → (a :: l)[j]? = some (a + (j : Int)))
    ∧ (streak_walk_fwd (a :: l) = (a :: l).length
        ∨ (a :: l)[streak_walk_fwd (a :: l)]? ≠ some (a + (streak_walk_fwd (a :: l) : Int))) := by
  induction l generalizing a with
  | nil =>
    constructor
    · intro j hj
      have h1 : streak_walk_fwd [a] = 1 := by simp [streak_walk_fwd]
      rw [h1] at hj
      have : j = 0 := by omega
      subst this
      simp
    · left
      simp [streak_walk_fwd]
  | cons b t ih =>
    by_cases hab : b - a = 1
    · have hfwd : streak_walk_fwd (a :: b :: t) = streak_walk_fwd (b :: t) + 1 := by
        simp [streak_walk_fwd, hab]
      obtain ⟨ih1, ih2⟩ := ih b
      constructor
      · intro j hj
        rw [hfwd] at hj
        cases j with
        | zero => simp
        | succ i =>
          rw [List.getElem?_cons_succ, ih1 i (by omega)]
          congr 1
          push_cast
          omega
      · rw [hfwd]
        rcases ih2 with h | h
        · left
          simp only [List.length_cons] at h ⊢
          omega
        · right
          rw [List.getElem?_cons_succ]
          intro hc
          apply h
          rw [hc]
          congr 1
          push_cast
          omega
    · have hfwd : streak_walk_fwd (a :: b :: t) = 1 := by
        simp [streak_walk_fwd, hab]
      constructor
      · intro j hj
        rw [hfwd] at hj
        have : j = 0 := by omega
        subst this
        simp
      · right
        rw [hfwd, List.getElem?_cons_succ, List.getElem?_cons_zero]
        intro hc
        have hb : b = a + (1 : Nat) := Option.some.inj hc
        push_cast at hb
        omega

theorem streak_walk_bwd_char (l : List Int) (a : Int) :
    (∀ j, j < streak_walk_bwd (a :: l) → (a :: l)[j]? = some (a - (j : Int)))
    ∧ (streak_walk_bwd (a :: l) = (a :: l).length
        ∨ (a :: l)[streak_walk_bwd (a :: l)]? ≠ some (a - (streak_walk_bwd (a :: l) : Int))) := by
  induction l generalizing a with
  | nil =>
    constructor
    · intro j hj
      have h1 : streak_walk_bwd [a] = 1 := by simp [streak_walk_bwd]
      rw [h1] at hj
      have : j = 0 := by omega
      subst this
      simp
    · left
      simp [streak_walk_bwd]
  | cons b t ih =>
    by_cases hab : a - b = 1
    · have hbwd : streak_walk_bwd (a :: b :: t) = streak_walk_bwd (b :: t) + 1 := by
        simp [streak_walk_bwd, hab]
      obtain ⟨ih1, ih2⟩ := ih b
      constructor
      · intro j hj
        rw [hbwd] at hj
        cases j with
        | zero => simp
        | succ i =>
          rw [List.getElem?_cons_succ, ih1 i (by omega)]
          congr 1
          push_cast
          omega
      · rw [hbwd]
        rcases ih2 with h | h
        · left
          simp only [List.length_cons] at h ⊢
          omega
        · right
          rw [List.getElem?_cons_succ]
          intro hc
          apply h
          rw [hc]
          congr 1
          push_cast
          omega
    · have hbwd : streak_walk_bwd (a :: b :: t) = 1 := by
        simp [streak_walk_bwd, hab]
      constructor
      · intro j hj
        rw [hbwd] at hj
        have : j = 0 := by omega
        subst this
        simp
      · right
        rw [hbwd, List.getElem?_cons_succ, List.getElem?_cons_zero]
        intro hc
        have hb : b = a - (1 : Nat) := Option.some.inj hc
        push_cast at hb
        omega

/-! ## Lemmas about studyDates -/

theorem studyDates_sorted (es : List Row) : (studyDates es).Sorted (· ≤ ·) :=
  List.sorted_insertionSort _ _

theorem studyDates_perm (es : List Row) :
    List.Perm (studyDates es) (es.map Row.date).dedup :=
  List.perm_insertionSort _ _

theorem studyDates_nodup (es : List Row) : (studyDates es).Nodup :=
  (studyDates_perm es).nodup_iff.mpr (List.nodup_dedup _)

theorem mem_studyDates (es : List Row) (x : Int) :
    x ∈ studyDates es ↔ x ∈ es.map Row.date := by
  rw [(studyDates_perm es).mem_iff, List.mem_dedup]

theorem studyDates_nil : studyDates [] = [] := rfl

theorem studyDates_ne_nil (es : List Row) (h : es ≠ []) : studyDates es ≠ [] := by
  rcases es with _ | ⟨r, es⟩
  · exact absurd rfl h
  · have hm : r.date ∈ studyDates (r :: es) :=
      (mem_studyDates _ _).mpr (List.mem_map_of_mem Row.date (List.mem_cons_self r es))
    exact List.ne_nil_of_mem hm

theorem studyDates_eq (es : List Row) (l : List Int) (hs : l.Sorted (· ≤ ·))
    (hnd : l.Nodup) (hm : ∀ x, x ∈ l ↔ x ∈ es.map Row.date) : studyDates es = l :=
  List.eq_of_perm_of_sorted
    ((List.perm_ext_iff_of_nodup (studyDates_nodup es) hnd).mpr
      (fun a => (mem_studyDates es a).trans ((hm a).symm)))
    (studyDates_sorted es) hs

theorem studyDates_single (d : Int) (s : String) (q : Rat) :
    studyDates [⟨d, s, q⟩] = [d] :=
  studyDates_eq _ _ (by simp) (by simp) (by simp)

theorem studyDates_three (d : Int) (s : String) (q : Rat) :
    studyDates [⟨d, s, q⟩, ⟨d - 1, s, q⟩, ⟨d - 2, s, q⟩] = [d - 2, d - 1, d] :=
  studyDates_eq _ _ (by simp [List.sorted_cons]; try omega) (by simp; try omega)
    (by intro x; simp; tauto)

theorem studyDates_pair (d : Int) (s : String) (q : Rat) :
    studyDates [⟨d, s, q⟩, ⟨d - 2, s, q⟩] = [d - 2, d] :=
  studyDates_eq _ _ (by simp [List.sorted_cons]; try omega) (by simp; try omega)
    (by intro x; simp; tauto)

theorem fwd_three (d : Int) : streak_walk_fwd [d - 2, d - 1, d] = 3 := by
  simp [streak_walk_fwd, show d - 1 - (d - 2) = 1 from by ring,
    show d - (d - 1) = 1 from by ring]

theorem bwd_three (d : Int) : streak_walk_bwd [d, d - 1, d - 2] = 3 := by
  simp [streak_walk_bwd, show d - (d - 1) = 1 from by ring,
    show d - 1 - (d - 2) = 1 from by ring]

theorem fwd_pair (d : Int) : streak_walk_fwd [d - 2, d] = 1 := by
  have h : ¬ (d - (d - 2) = 1) := by omega
  simp [streak_walk_fwd, h]

theorem bwd_pair (d : Int) : streak_walk_bwd [d, d - 2] = 1 := by
  have h : ¬ (d - (d - 2) = 1) := by omega
  simp [streak_walk_bwd, h]

/-- C1 amended: the Neet.py streak (calculate_stats) walks the sorted
unique study-dates from the most recent date backward, counting while
each date is exactly one day before its predecessor, and stops at the
first gap, while the StudyAnalyzer streak (_calculate_streak) walks
from the OLDEST date forward with the same stopping rule; for both,
an empty history gives 0, a single-day history gives 1,
dates d, d-1, d-2 give 3, and dates d, d-2 give 1.  The first two
conjuncts state the walks exactly: writing k for the computed streak
and v for the date list walked (most recent first for Neet.py, oldest
first for StudyAnalyzer), the first k dates of v are consecutive
starting at its head, and either the walk consumed the whole list or
the next date breaks consecutiveness. -/
theorem claim_C1 :
    (∀ (es : List Row) (a : Int) (r : List Int),
        (studyDates es).reverse = a :: r →
          (∀ j, j < NeetApp.calculate_stats_streak es →
              (a :: r)[j]? = some (a - (j : Int)))
          ∧ (NeetApp.calculate_stats_streak es = (a :: r).length
              ∨ (a :: r)[NeetApp.calculate_stats_streak es]?
                  ≠ some (a - (NeetApp.calculate_stats_streak es : Int))))
    ∧ (∀ (es : List Row) (a : Int) (r : List Int),
        studyDates es = a :: r →
          (∀ j, j < StudyAnalyzer._calculate_streak es →
              (a :: r)[j]? = some (a + (j : Int)))
          ∧ (StudyAnalyzer._calculate_streak es = (a :: r).length
              ∨ (a :: r)[StudyAnalyzer._calculate_streak es]?
                  ≠ some (a + (StudyAnalyzer._calculate_streak es : Int))))
    ∧ StudyAnalyzer._calculate_streak [] = 0
    ∧ NeetApp.calculate_stats_streak [] = 0
    ∧ (∀ (d : Int) (s : String) (q : Rat),
        StudyAnalyzer._calculate_streak [⟨d, s, q⟩] = 1
        ∧ NeetApp.calculate_stats_streak [⟨d, s, q⟩] = 1)
    ∧ (∀ (d : Int) (s : String) (q : Rat),
        StudyAnalyzer._calculate_streak [⟨d, s, q⟩, ⟨d - 1, s, q⟩, ⟨d - 2, s, q⟩] = 3
        ∧ NeetApp.calculate_stats_streak [⟨d, s, q⟩, ⟨d - 1, s, q⟩, ⟨d - 2, s, q⟩] = 3)
    ∧ (∀ (d : Int) (s : String) (q : Rat),
        StudyAnalyzer._calculate_streak [⟨d, s, q⟩, ⟨d - 2, s, q⟩] = 1
        ∧ NeetApp.calculate_stats_streak [⟨d, s, q⟩, ⟨d - 2, s, q⟩] = 1) := by
  refine ⟨?_, ?_, rfl, rfl, ?_, ?_, ?_⟩
  · intro es a r h
    have hne : es ≠ [] := by
      intro he
      subst he
      rw [studyDates_nil] at h
      simp at h
    have hcs : NeetApp.calculate_stats_streak es = streak_walk_bwd (a :: r) := by
      unfold NeetApp.calculate_stats_streak
      rw [if_neg hne, h]
    rw [hcs]
    exact streak_walk_bwd_char r a
  · intro es a r h
    have hne : es ≠ [] := by
      intro he
      subst he
      rw [studyDates_nil] at h
      simp at h
    have hcs : StudyAnalyzer._calculate_streak es = streak_walk_fwd (a :: r) := by
      unfold StudyAnalyzer._calculate_streak
      rw [if_neg hne, h]
    rw [hcs]
    exact streak_walk_fwd_char r a
  · intro d s q
    constructor
    · simp [StudyAnalyzer._calculate_streak, studyDates_single, streak_walk_fwd]
    · simp [NeetApp.calculate_stats_streak, studyDates_single, streak_walk_bwd]
  · intro d s q
    constructor
    · simp [StudyAnalyzer._calculate_streak, studyDates_three, fwd_three]
    · simp [NeetApp.calculate_stats_streak, studyDates_three, bwd_three]
  · intro d s q
    constructor
    · simp [StudyAnalyzer._calculate_streak, studyDates_pair, fwd_pair]
    · simp [NeetApp.calculate_stats_streak, studyDates_pair, bwd_pair]

theorem claim_C1_witness :
    (∀ j, j < NeetApp.calculate_stats_streak [⟨5, "Physics", 1⟩] →
        (([5] : List Int))[j]? = some (5 - (j : Int)))
    ∧ StudyAnalyzer._calculate_streak [⟨7, "Physics", 1⟩, ⟨6, "Physics", 1⟩, ⟨5, "Physics", 1⟩] = 3 :=
  ⟨(claim_C1.1 [⟨5, "Physics", 1⟩] 5 [] (by with_unfolding_all decide)).1,
   (claim_C1.2.2.2.2.2.1 7 "Physics" 1).1⟩

/-- C1 is false as stated: on the history with dates 0, 1 and 3 the
backward walk described by the claim gives streak 1 (there is a gap
just below the most recent date 3), and calculate_stats computes 1,
but StudyAnalyzer._calculate_streak computes 2 because it walks from
the oldest date forward; so the stated algorithm does not hold for
both implementations. -/
theorem claim_C1_cex :
    StudyAnalyzer._calculate_streak
        [⟨0, "Physics", 1⟩, ⟨1, "Physics", 1⟩, ⟨3, "Physics", 1⟩] = 2
    ∧ NeetApp.calculate_stats_streak
        [⟨0, "Physics", 1⟩, ⟨1, "Physics", 1⟩, ⟨3, "Physics", 1⟩] = 1
    ∧ StudyAnalyzer._calculate_streak
          [⟨0, "Physics", 1⟩, ⟨1, "Physics", 1⟩, ⟨3, "Physics", 1⟩]
        ≠ NeetApp.calculate_stats_streak
          [⟨0, "Physics", 1⟩, ⟨1, "Physics", 1⟩, ⟨3, "Physics", 1⟩] := by
  with_unfolding_all decide

/-- C10 amended: the two streak implementations agree on the empty
history and on every history whose distinct study-dates form one
consecutive block (both then return the number of distinct dates,
covering in particular every single-day history), but they do not
agree in general: the analyzer counts the run at the oldest end and
calculate_stats the run at the most recent end. -/
theorem claim_C10 :
    StudyAnalyzer._calculate_streak [] = NeetApp.calculate_stats_streak []
    ∧ (∀ (es : List Row) (a : Int) (r : List Int),
        studyDates es = a :: r →
        (∀ j, j < (a :: r).length → (a :: r)[j]? = some (a + (j : Int))) →
        StudyAnalyzer._calculate_streak es = (a :: r).length
          ∧ NeetApp.calculate_stats_streak es = (a :: r).length) := by
  constructor
  · rfl
  · intro es a r h hconsec
    have hne : es ≠ [] := by
      intro he
      subst he
      rw [studyDates_nil] at h
      simp at h
    have hfwd : StudyAnalyzer._calculate_streak es = streak_walk_fwd (a :: r) := by
      unfold StudyAnalyzer._calculate_streak
      rw [if_neg hne, h]
    have hbwd : NeetApp.calculate_stats_streak es = streak_walk_bwd (a :: r).reverse := by
      unfold NeetApp.calculate_stats_streak
      rw [if_neg hne, h]
    constructor
    · rw [hfwd]
      rcases (streak_walk_fwd_char r a).2 with hh | hh
      · exact hh
      · have hlt : streak_walk_fwd (a :: r) ≤ (a :: r).length := streak_walk_fwd_le r a
        rcases lt_or_eq_of_le hlt with hlt2 | he
        · exact absurd (hconsec _ hlt2) hh
        · exact he
    · rw [hbwd]
      rcases h2 : (a :: r).reverse with _ | ⟨b, rr⟩
      · exact absurd (congrArg List.length h2) (by simp)
      · have hlen : (b :: rr).length = (a :: r).length := by
          rw [← h2, List.length_reverse]
        have hrev : ∀ j, j < (a :: r).length →
            (b :: rr)[j]? = some (a + ((a :: r).length - 1 - j : Nat)) := by
          intro j hj
          rw [← h2, List.getElem?_reverse (by omega)]
          exact hconsec _ (by omega)
        have hb : b = a + ((a :: r).length - 1 : Nat) := by
          have h0 := hrev 0 (by simp)
          rw [List.getElem?_cons_zero] at h0
          have := Option.some.inj h0
          omega
        rcases (streak_walk_bwd_char rr b).2 with hh | hh
        · rw [hh, hlen]
        · have hle : streak_walk_bwd (b :: rr) ≤ (b :: rr).length := streak_walk_bwd_le rr b
          rcases lt_or_eq_of_le hle with hlt2 | he
          · set K := streak_walk_bwd (b :: rr) with hK
            have hKlen : K < (a :: r).length := by omega
            have hval := hrev K hKlen
            have hcast : b - (K : Int) = a + ((a :: r).length - 1 - K : Nat) := by
              rw [hb]
              omega
            rw [← hcast] at hval
            exact absurd hval hh
          · rw [he, hlen]

theorem claim_C10_witness :
    StudyAnalyzer._calculate_streak
        [⟨4, "Botany", 1⟩, ⟨5, "Botany", 1⟩, ⟨6, "Botany", 1⟩]
      = NeetApp.calculate_stats_streak
        [⟨4, "Botany", 1⟩, ⟨5, "Botany", 1⟩, ⟨6, "Botany", 1⟩] := by
  have h := claim_C10.2 [⟨4, "Botany", 1⟩, ⟨5, "Botany", 1⟩, ⟨6, "Botany", 1⟩] 4 [5, 6]
    (by with_unfolding_all decide) (by with_unfolding_all decide)
  rw [h.1, h.2]

/-- C10 is false as stated: on the history with dates 10, 11 and 13
the analyzer computes 2 and calculate_stats computes 1. -/
theorem claim_C10_cex :
    StudyAnalyzer._calculate_streak
        [⟨10, "Physics", 1⟩, ⟨11, "Physics", 1⟩, ⟨13, "Physics", 1⟩] = 2
    ∧ NeetApp.calculate_stats_streak
        [⟨10, "Physics", 1⟩, ⟨11, "Physics", 1⟩, ⟨13, "Physics", 1⟩] = 1
    ∧ StudyAnalyzer._calculate_streak
          [⟨10, "Physics", 1⟩, ⟨11, "Physics", 1⟩, ⟨13, "Physics", 1⟩]
        ≠ NeetApp.calculate_stats_streak
          [⟨10, "Physics", 1⟩, ⟨11, "Physics", 1⟩, ⟨13, "Physics", 1⟩] := by
  with_unfolding_all decide

/-! ## Lemmas about listMax and listMin -/

theorem le_foldl_max (l : List Int) (a : Int) : a ≤ l.foldl max a := by
  induction l generalizing a with
  | nil => exact le_refl a
  | cons b t ih => exact le_trans (le_max_left a b) (ih (max a b))

theorem mem_le_foldl_max (l : List Int) (a : Int) : ∀ x ∈ l, x ≤ l.foldl max a := by
  induction l generalizing a with
  | nil => intro x hx; cases hx
  | cons b t ih =>
    intro x hx
    rcases List.mem_cons.mp hx with h | h
    · subst h
      exact le_trans (le_max_right a x) (le_foldl_max t (max a x))
    · exact ih (max a b) x h

theorem foldl_max_cases (l : List Int) (a : Int) : l.foldl max a = a ∨ l.foldl max a ∈ l := by
  induction l generalizing a with
  | nil => exact Or.inl rfl
  | cons b t ih =>
    rcases ih (max a b) with h | h
    · rcases max_choice a b with hm | hm
      · left
        rw [List.foldl_cons, h, hm]
      · right
        rw [List.foldl_cons, h, hm]
        exact List.mem_cons_self b t
    · right
      exact List.mem_cons_of_mem b h

theorem foldl_min_le (l : List Int) (a : Int) : l.foldl min a ≤ a := by
  induction l generalizing a with
  | nil => exact le_refl a
  | cons b t ih => exact le_trans (ih (min a b)) (min_le_left a b)

theorem foldl_min_le_mem (l : List Int) (a : Int) : ∀ x ∈ l, l.foldl min a ≤ x := by
  induction l generalizing a with
  | nil => intro x hx; cases hx
  | cons b t ih =>
    intro x hx
    rcases List.mem_cons.mp hx with h | h
    · subst h
      exact le_trans (foldl_min_le t (min a x)) (min_le_right a x)
    · exact ih (min a b) x h

theorem foldl_min_cases (l : List Int) (a : Int) : l.foldl min a = a ∨ l.foldl min a ∈ l := by
  induction l generalizing a with
  | nil => exact Or.inl rfl
  | cons b t ih =>
    rcases ih (min a b) with h | h
    · rcases min_choice a b with hm | hm
      · left
        rw [List.foldl_cons, h, hm]
      · right
        rw [List.foldl_cons, h, hm]
        exact List.mem_cons_self b t
    · right
      exact List.mem_cons_of_mem b h

theorem le_listMax (l : List Int) (x : Int) (h : x ∈ l) : x ≤ listMax l := by
  cases l with
  | nil => cases h
  | cons a t =>
    rcases List.mem_cons.mp h with hh | hh
    · subst hh
      exact le_foldl_max t x
    · exact mem_le_foldl_max t a x hh

theorem listMin_le (l : List Int) (x : Int) (h : x ∈ l) : listMin l ≤ x := by
  cases l with
  | nil => cases h
  | cons a t =>
    rcases List.mem_cons.mp h with hh | hh
    · subst hh
      exact foldl_min_le t x
    · exact foldl_min_le_mem t a x hh

theorem listMax_mem (l : List Int) (h : l ≠ []) : listMax l ∈ l := by
  cases l with
  | nil => exact absurd rfl h
  | cons a t =>
    rcases foldl_max_cases t a with hh | hh
    · rw [listMax, hh]
      exact List.mem_cons_self a t
    · exact List.mem_cons_of_mem a hh

theorem listMin_mem (l : List Int) (h : l ≠ []) : listMin l ∈ l := by
  cases l with
  | nil => exact absurd rfl h
  | cons a t =>
    rcases foldl_min_cases t a with hh | hh
    · rw [listMin, hh]
      exact List.mem_cons_self a t
    · exact List.mem_cons_of_mem a hh

theorem listMin_le_listMax (l : List Int) (h : l ≠ []) : listMin l ≤ listMax l :=
  le_trans (listMin_le l (listMax l) (listMax_mem l h)) (le_refl _)

theorem consistency_score_nonempty (es : List Row) (h : es ≠ []) :
    StudyAnalyzer._calculate_consistency_score es
      = round2 (((es.map Row.date).dedup.length : Rat)
          / ((listMax (es.map Row.date) - listMin (es.map Row.date) + 1 : Int) : Rat) * 100) := by
  have hds : es.map Row.date ≠ [] := by
    simpa using h
  have hrange : (0 : Int) < listMax (es.map Row.date) - listMin (es.map Row.date) + 1 := by
    have := listMin_le_listMax _ hds
    omega
  simp only [StudyAnalyzer._calculate_consistency_score, if_neg h, if_pos hrange]

theorem neet_consistency_nonempty (es : List Row) (h : es ≠ []) :
    NeetApp.show_progress_analysis_consistency es
      = ((es.map Row.date).dedup.length : Rat)
          / ((listMax (es.map Row.date) - listMin (es.map Row.date) + 1 : Int) : Rat) * 100 := by
  have hds : es.map Row.date ≠ [] := by
    simpa using h
  have hrange : (0 : Int) < listMax (es.map Row.date) - listMin (es.map Row.date) + 1 := by
    have := listMin_le_listMax _ hds
    omega
  simp only [NeetApp.show_progress_analysis_consistency, if_neg h, if_pos hrange]

theorem covered_card (es : List Row) (h : es ≠ [])
    (hcov : ∀ x : Int, listMin (es.map Row.date) ≤ x → x ≤ listMax (es.map Row.date) →
        x ∈ es.map Row.date) :
    (((es.map Row.date).dedup.length : Int))
      = listMax (es.map Row.date) - listMin (es.map Row.date) + 1 := by
  have hds : es.map Row.date ≠ [] := by
    simpa using h
  have hIcc : (es.map Row.date).toFinset
      = Finset.Icc (listMin (es.map Row.date)) (listMax (es.map Row.date)) := by
    ext x
    simp only [List.mem_toFinset, Finset.mem_Icc]
    constructor
    · intro hx
      exact ⟨listMin_le _ _ hx, le_listMax _ _ hx⟩
    · intro hx
      exact hcov x hx.1 hx.2
  have hmm := listMin_le_listMax _ hds
  have hcard := List.card_toFinset (es.map Row.date)
  rw [hIcc, Int.card_Icc] at hcard
  omega

/-- C2 amended: for every nonempty entry collection, the analyzer
consistency score equals (number of distinct study days) divided by
(max date - min date + 1 day) times 100 rounded to 2 decimals, and is
0 for an empty history, while the progress-analysis page of Neet.py
computes the SAME ratio but does not round it; when every day of the
observed range has an entry, both give exactly 100.  (A history with
entries on exactly 1 of 10 observed days cannot exist, since the
observed range is spanned by the entry dates themselves; the
one-distinct-day history has range 1 and scores 100.) -/
theorem claim_C2 :
    (∀ es : List Row, es ≠ [] →
        StudyAnalyzer._calculate_consistency_score es
          = round2 ((((es.map Row.date).toFinset.card : Rat) * 100)
              / ((listMax (es.map Row.date) - listMin (es.map Row.date) + 1 : Int) : Rat))
        ∧ NeetApp.show_progress_analysis_consistency es
          = (((es.map Row.date).toFinset.card : Rat) * 100)
              / ((listMax (es.map Row.date) - listMin (es.map Row.date) + 1 : Int) : Rat))
    ∧ StudyAnalyzer._calculate_consistency_score [] = 0
    ∧ NeetApp.show_progress_analysis_consistency [] = 0
    ∧ (∀ es : List Row, es ≠ [] →
        (∀ x : Int, listMin (es.map Row.date) ≤ x → x ≤ listMax (es.map Row.date) →
            x ∈ es.map Row.date) →
        StudyAnalyzer._calculate_consistency_score es = 100
        ∧ NeetApp.show_progress_analysis_consistency es = 100) := by
  have key : ∀ es : List Row, es ≠ [] →
      ((es.map Row.date).dedup.length : Rat)
          / ((listMax (es.map Row.date) - listMin (es.map Row.date) + 1 : Int) : Rat) * 100
        = (((es.map Row.date).toFinset.card : Rat) * 100)
          / ((listMax (es.map Row.date) - listMin (es.map Row.date) + 1 : Int) : Rat) := by
    intro es h
    rw [List.card_toFinset]
    rw [div_mul_eq_mul_div]
  refine ⟨?_, rfl, rfl, ?_⟩
  · intro es h
    constructor
    · rw [consistency_score_nonempty es h, key es h]
    · rw [neet_consistency_nonempty es h, key es h]
  · intro es h hcov
    have hds : es.map Row.date ≠ [] := by
      simpa using h
    have hrange : (0 : Int) < listMax (es.map Row.date) - listMin (es.map Row.date) + 1 := by
      have := listMin_le_listMax _ hds
      omega
    have hcard := covered_card es h hcov
    have hrat : ((es.map Row.date).dedup.length : Rat)
        = ((listMax (es.map Row.date) - listMin (es.map Row.date) + 1 : Int) : Rat) := by
      exact_mod_cast congrArg (fun z : Int => (z : Rat)) hcard
    have hne0 : ((listMax (es.map Row.date) - listMin (es.map Row.date) + 1 : Int) : Rat) ≠ 0 := by
      exact_mod_cast ne_of_gt hrange
    have hval : ((es.map Row.date).dedup.length : Rat)
        / ((listMax (es.map Row.date) - listMin (es.map Row.date) + 1 : Int) : Rat) * 100
        = 100 := by
      rw [hrat, div_self hne0, one_mul]
    constructor
    · rw [consistency_score_nonempty es h, hval]
      with_unfolding_all decide
    · rw [neet_consistency_nonempty es h, hval]

theorem claim_C2_witness :
    StudyAnalyzer._calculate_consistency_score [⟨0, "Physics", 1⟩, ⟨1, "Physics", 1⟩] = 100
    ∧ NeetApp.show_progress_analysis_consistency [⟨0, "Physics", 1⟩, ⟨1, "Physics", 1⟩] = 100 := by
  refine claim_C2.2.2.2 [⟨0, "Physics", 1⟩, ⟨1, "Physics", 1⟩] (by simp) ?_
  have hm : ([⟨0, "Physics", 1⟩, ⟨1, "Physics", 1⟩] : List Row).map Row.date = [0, 1] := rfl
  intro x h1 h2
  rw [hm] at h1 h2 ⊢
  have e1 : listMin [0, 1] = 0 := by with_unfolding_all decide
  have e2 : listMax [0, 1] = 1 := by with_unfolding_all decide
  rw [e1] at h1
  rw [e2] at h2
  have : x = 0 ∨ x = 1 := by omega
  rcases this with h | h <;> simp [h]

/-- C2 is false as stated for the progress-analysis page: with entries
on days 0 and 2 the page computes the unrounded value 200/3, which is
not the 2-decimal rounding 66.67 the claim asserts. -/
theorem claim_C2_cex :
    NeetApp.show_progress_analysis_consistency [⟨0, "Physics", 1⟩, ⟨2, "Physics", 1⟩] = 200/3
    ∧ round2 (200/3) = 6667/100
    ∧ NeetApp.show_progress_analysis_consistency [⟨0, "Physics", 1⟩, ⟨2, "Physics", 1⟩]
        ≠ round2 (200/3) := by
  have h := neet_consistency_nonempty [⟨0, "Physics", 1⟩, ⟨2, "Physics", 1⟩] (by simp)
  have hm : ([⟨0, "Physics", 1⟩, ⟨2, "Physics", 1⟩] : List Row).map Row.date = [0, 2] := rfl
  rw [hm] at h
  have e1 : ([0, 2] : List Int).dedup.length = 2 := by decide
  have e2 : listMax [0, 2] = 2 := by with_unfolding_all decide
  have e3 : listMin [0, 2] = 0 := by with_unfolding_all decide
  rw [e1, e2, e3] at h
  norm_num at h
  have hr : round2 (200/3) = 6667/100 := by
    have hfl : ⌊(200 : Rat) / 3 * 100⌋ = 6666 := by
      rw [Int.floor_eq_iff]
      norm_num
    have c1 : ¬((200 : Rat) / 3 * 100 - ((6666 : Int) : Rat) < 1/2) := by
      push_cast
      norm_num
    have c2 : (1 : Rat)/2 < 200 / 3 * 100 - ((6666 : Int) : Rat) := by
      push_cast
      norm_num
    simp only [round2, rhe, hfl]
    rw [if_neg c1, if_pos c2]
    norm_num
  refine ⟨h, hr, ?_⟩
  rw [h, hr]
  norm_num

/-! ## Partition of the duration sum over the subject groups -/

theorem sum_map_filter_or (l : List Row) (p q : Row → Bool) (f : Row → Rat)
    (hdisj : ∀ x, ¬(p x = true ∧ q x = true)) :
    ((l.filter fun x => p x || q x).map f).sum
      = ((l.filter p).map f).sum + ((l.filter q).map f).sum := by
  induction l with
  | nil => simp
  | cons a t ih =>
    rcases hp : p a <;> rcases hq : q a
    · simp [List.filter_cons, hp, hq, ih]
    · simp only [List.filter_cons, hp, hq, Bool.false_or, if_pos, List.map_cons, List.sum_cons,
        if_neg, Bool.false_eq_true, ite_false, ite_true]
      rw [ih]
      ring
    · simp only [List.filter_cons, hp, hq, Bool.or_false, List.map_cons, List.sum_cons,
        Bool.false_eq_true, ite_false, ite_true]
      rw [ih]
      ring
    · exact absurd ⟨hp, hq⟩ (hdisj a)

theorem decide_mem_cons (x k : String) (ks : List String) :
    decide (x ∈ k :: ks) = ((x == k) || decide (x ∈ ks)) := by
  by_cases h : x = k <;> simp [List.mem_cons, h]

theorem group_partition (ks : List String) (hnd : ks.Nodup) (es : List Row) :
    (ks.map fun s => StudyAnalyzer.group_sum es s).sum
      = ((es.filter fun r => decide (r.subject ∈ ks)).map Row.duration).sum := by
  induction ks with
  | nil => simp
  | cons k ks ih =>
    have hk : k ∉ ks := (List.nodup_cons.mp hnd).1
    have hnd2 : ks.Nodup := (List.nodup_cons.mp hnd).2
    have hcongr : es.filter (fun r => decide (r.subject ∈ k :: ks))
        = es.filter (fun r => (r.subject == k) || decide (r.subject ∈ ks)) := by
      apply List.filter_congr
      intro r _
      exact decide_mem_cons r.subject k ks
    rw [List.map_cons, List.sum_cons, hcongr,
      sum_map_filter_or es (fun r => r.subject == k) (fun r => decide (r.subject ∈ ks))
        Row.duration ?_, ih hnd2]
    · rfl
    · intro r hr
      have h1 : r.subject = k := by
        have := hr.1
        simpa using this
      have h2 : r.subject ∈ ks := by
        have := hr.2
        simpa using this
      rw [h1] at h2
      exact hk h2

theorem group_partition_full (es : List Row) :
    ((StudyAnalyzer.subjects es).map fun s => StudyAnalyzer.group_sum es s).sum
      = (es.map Row.duration).sum := by
  have hnd : (StudyAnalyzer.subjects es).Nodup := by
    unfold StudyAnalyzer.subjects
    exact List.nodup_dedup _
  rw [group_partition (StudyAnalyzer.subjects es) hnd es]
  have hfull : es.filter (fun r => decide (r.subject ∈ StudyAnalyzer.subjects es)) = es := by
    rw [List.filter_eq_self]
    intro r hr
    simp only [decide_eq_true_eq, StudyAnalyzer.subjects, List.mem_dedup]
    exact List.mem_map_of_mem Row.subject hr
  rw [hfull]

theorem sum_map_div_mul (ks : List String) (g : String → Rat) (t : Rat) :
    (ks.map fun s => g s / t * 100).sum = (ks.map g).sum / t * 100 := by
  induction ks with
  | nil => simp
  | cons k ks ih =>
    simp only [List.map_cons, List.sum_cons]
    rw [ih]
    ring

theorem sum_round_err (l : List Rat) (rd : Rat → Rat) (e : Rat)
    (h : ∀ x, |rd x - x| ≤ e) :
    |(l.map rd).sum - l.sum| ≤ l.length * e := by
  induction l with
  | nil => simp
  | cons a t ih =>
    simp only [List.map_cons, List.sum_cons, List.length_cons]
    have step : |rd a + (t.map rd).sum - (a + t.sum)|
        ≤ |rd a - a| + |(t.map rd).sum - t.sum| := by
      have : rd a + (t.map rd).sum - (a + t.sum)
          = (rd a - a) + ((t.map rd).sum - t.sum) := by ring
      rw [this]
      exact abs_add _ _
    have hlen : ((t.length + 1 : Nat) : Rat) * e = e + (t.length : Rat) * e := by
      push_cast
      ring
    rw [hlen]
    exact le_trans step (add_le_add (h a) ih)

theorem subject_balance_nonempty (es : List Row) (h : es ≠ [])
    (ht : (es.map Row.duration).sum ≠ 0) :
    StudyAnalyzer._analyze_subject_balance es
      = (StudyAnalyzer.subjects es).map
          (fun s => (s, round2 (StudyAnalyzer.group_sum es s / (es.map Row.duration).sum * 100))) := by
  simp only [StudyAnalyzer._analyze_subject_balance, if_neg h, if_neg ht]

theorem dashboard_pct_pos (es : List Row) (ht : 0 < (es.map Row.duration).sum) :
    NeetApp.dashboard_subject_percentage es
      = (StudyAnalyzer.subjects es).map
          (fun s => (s, round1 (StudyAnalyzer.group_sum es s / (es.map Row.duration).sum * 100))) := by
  simp only [NeetApp.dashboard_subject_percentage, if_pos ht]

theorem snd_map_pair (ks : List String) (f : String → Rat) :
    ((ks.map fun s => (s, f s)).map Prod.snd) = ks.map f := by
  induction ks with
  | nil => rfl
  | cons k ks ih => simp [ih]

theorem rhe_int (n : Int) : rhe ((n : Int) : Rat) = n := by
  unfold rhe
  rw [Int.floor_intCast]
  have h : ((n : Int) : Rat) - ((n : Int) : Rat) = 0 := by ring
  rw [h]
  norm_num

theorem rhe_half_even (n : Int) (h : n % 2 = 0) : rhe (((n : Int) : Rat) + 1/2) = n := by
  have hfl : ⌊((n : Int) : Rat) + 1/2⌋ = n := by
    rw [Int.floor_eq_iff]
    constructor
    · linarith
    · linarith
  unfold rhe
  rw [hfl]
  have hfrac : ((n : Int) : Rat) + 1/2 - ((n : Int) : Rat) = 1/2 := by ring
  rw [hfrac]
  norm_num [h]

/-- C9 amended: for every entry collection with positive total
duration, each pair in the analyzer subject balance carries the
subject share of the total duration in percent rounded to 2 decimals
(not 1), while the dashboard percentage column rounds the same share
to 1 decimal; in both, the rounded percentages over all subjects sum
to 100 within the accumulated rounding error (n/200 resp. n/20 for n
subjects); when the total duration is zero both results are empty
rather than a division error. -/
theorem claim_C9 :
    (∀ es : List Row, 0 < (es.map Row.duration).sum →
        (∀ s p, (s, p) ∈ StudyAnalyzer._analyze_subject_balance es →
            p = round2 (StudyAnalyzer.group_sum es s * 100 / (es.map Row.duration).sum))
        ∧ (∀ s p, (s, p) ∈ NeetApp.dashboard_subject_percentage es →
            p = round1 (StudyAnalyzer.group_sum es s * 100 / (es.map Row.duration).sum))
        ∧ |((StudyAnalyzer._analyze_subject_balance es).map Prod.snd).sum - 100|
            ≤ ((StudyAnalyzer.subjects es).length : Rat) * (1/200)
        ∧ |((NeetApp.dashboard_subject_percentage es).map Prod.snd).sum - 100|
            ≤ ((StudyAnalyzer.subjects es).length : Rat) * (1/20))
    ∧ (∀ es : List Row, (es.map Row.duration).sum = 0 →
        StudyAnalyzer._analyze_subject_balance es = []
        ∧ NeetApp.dashboard_subject_percentage es = []) := by
  constructor
  · intro es hpos
    have hne : es ≠ [] := by
      intro he
      subst he
      simp at hpos
    have ht : (es.map Row.duration).sum ≠ 0 := ne_of_gt hpos
    have hbal := subject_balance_nonempty es hne ht
    have hdash := dashboard_pct_pos es hpos
    have hsum100 : ((StudyAnalyzer.subjects es).map
        (fun s => StudyAnalyzer.group_sum es s / (es.map Row.duration).sum * 100)).sum = 100 := by
      rw [sum_map_div_mul, group_partition_full, div_self ht, one_mul]
    refine ⟨?_, ?_, ?_, ?_⟩
    · intro s p hp
      rw [hbal] at hp
      rcases List.mem_map.mp hp with ⟨s0, _, heq⟩
      have hs : s0 = s := congrArg Prod.fst heq
      have hv : round2 (StudyAnalyzer.group_sum es s0 / (es.map Row.duration).sum * 100) = p :=
        congrArg Prod.snd heq
      subst hs
      rw [← hv, div_mul_eq_mul_div]
    · intro s p hp
      rw [hdash] at hp
      rcases List.mem_map.mp hp with ⟨s0, _, heq⟩
      have hs : s0 = s := congrArg Prod.fst heq
      have hv : round1 (StudyAnalyzer.group_sum es s0 / (es.map Row.duration).sum * 100) = p :=
        congrArg Prod.snd heq
      subst hs
      rw [← hv, div_mul_eq_mul_div]
    · rw [hbal, snd_map_pair]
      have hmm : (StudyAnalyzer.subjects es).map
          (fun s => round2 (StudyAnalyzer.group_sum es s / (es.map Row.duration).sum * 100))
          = ((StudyAnalyzer.subjects es).map
              (fun s => StudyAnalyzer.group_sum es s / (es.map Row.duration).sum * 100)).map round2 := by
        rw [List.map_map]
        rfl
      rw [hmm]
      have herr := sum_round_err
        ((StudyAnalyzer.subjects es).map
          (fun s => StudyAnalyzer.group_sum es s / (es.map Row.duration).sum * 100))
        round2 (1/200) round2_abs_le
      rw [hsum100, List.length_map] at herr
      exact herr
    · rw [hdash, snd_map_pair]
      have hmm : (StudyAnalyzer.subjects es).map
          (fun s => round1 (StudyAnalyzer.group_sum es s / (es.map Row.duration).sum * 100))
          = ((StudyAnalyzer.subjects es).map
              (fun s => StudyAnalyzer.group_sum es s / (es.map Row.duration).sum * 100)).map round1 := by
        rw [List.map_map]
        rfl
      rw [hmm]
      have herr := sum_round_err
        ((StudyAnalyzer.subjects es).map
          (fun s => StudyAnalyzer.group_sum es s / (es.map Row.duration).sum * 100))
        round1 (1/20) round1_abs_le
      rw [hsum100, List.length_map] at herr
      exact herr
  · intro es h0
    constructor
    · by_cases he : es = []
      · simp [StudyAnalyzer._analyze_subject_balance, he]
      · simp [StudyAnalyzer._analyze_subject_balance, he, h0]
    · simp [NeetApp.dashboard_subject_percentage, h0]

theorem claim_C9_witness :
    |((StudyAnalyzer._analyze_subject_balance
          [⟨0, "Physics", 1⟩, ⟨0, "Chemistry", 3⟩]).map Prod.snd).sum - 100|
      ≤ ((StudyAnalyzer.subjects [⟨0, "Physics", 1⟩, ⟨0, "Chemistry", 3⟩]).length : Rat)
          * (1/200) :=
  (claim_C9.1 [⟨0, "Physics", 1⟩, ⟨0, "Chemistry", 3⟩] (by norm_num)).2.2.1

/-- C9 is false as stated: the analyzer rounds the subject shares to
2 decimals, not 1.  With durations 1 (Physics) and 15 (Chemistry) the
Physics share is 6.25 percent: the analyzer stores 6.25, while the
claimed 1-decimal rounding gives 6.2 (round half to even). -/
theorem claim_C9_cex :
    StudyAnalyzer._analyze_subject_balance [⟨0, "Physics", 1⟩, ⟨0, "Chemistry", 15⟩]
      = [("Physics", 25/4), ("Chemistry", 375/4)]
    ∧ round1 (25/4) = 31/5
    ∧ ((25 : Rat)/4) ≠ 31/5 := by
  have hsum : (([⟨0, "Physics", 1⟩, ⟨0, "Chemistry", 15⟩] : List Row).map Row.duration).sum
      = 16 := by norm_num
  have hbal := subject_balance_nonempty [⟨0, "Physics", 1⟩, ⟨0, "Chemistry", 15⟩]
    (by simp) (by rw [hsum]; norm_num)
  have hsubj : StudyAnalyzer.subjects [⟨0, "Physics", 1⟩, ⟨0, "Chemistry", 15⟩]
      = ["Physics", "Chemistry"] := by decide
  have hg1 : StudyAnalyzer.group_sum [⟨0, "Physics", 1⟩, ⟨0, "Chemistry", 15⟩] "Physics"
      = 1 := by
    with_unfolding_all decide
  have hg2 : StudyAnalyzer.group_sum [⟨0, "Physics", 1⟩, ⟨0, "Chemistry", 15⟩] "Chemistry"
      = 15 := by
    with_unfolding_all decide
  have hr1 : round2 ((1 : Rat) / 16 * 100) = 25/4 := by
    have harg : (1 : Rat) / 16 * 100 * 100 = ((625 : Int) : Rat) := by norm_num
    rw [round2, harg, rhe_int]
    norm_num
  have hr2 : round2 ((15 : Rat) / 16 * 100) = 375/4 := by
    have harg : (15 : Rat) / 16 * 100 * 100 = ((9375 : Int) : Rat) := by norm_num
    rw [round2, harg, rhe_int]
    norm_num
  refine ⟨?_, ?_, by norm_num⟩
  · rw [hbal, hsubj, hsum]
    simp only [List.map_cons, List.map_nil]
    rw [hg1, hg2, hr1, hr2]
  · have harg : (25 : Rat) / 4 * 10 = ((62 : Int) : Rat) + 1/2 := by norm_num
    rw [round1, harg, rhe_half_even 62 (by norm_num)]
    norm_num

/-! ## Lemmas about authenticate_user -/

namespace AuthManager

theorem db_set_self (db : AuthDB) (u : String) (usr : AuthUser) :
    db_set db u usr u = some usr := if_pos rfl

theorem is_locked_none (user : AuthUser) (now : Int) (h : user.locked_until = none) :
    is_locked user now = false := by
  simp [is_locked, h]

theorem is_locked_future (user : AuthUser) (now t : Int) (h : user.locked_until = some t)
    (ht : now < t) : is_locked user now = true := by
  simp [is_locked, h, ht]

theorem auth_wrong_step (hash : String → String) (db : AuthDB) (u pw : String) (now : Int)
    (user : AuthUser) (hu : db u = some user) (hl : is_locked user now = false)
    (hw : user.password ≠ hash pw) (hfa : user.failed_attempts + 1 < 5) :
    authenticate_user hash db u pw now
      = ⟨false, "Invalid username or password", none,
          db_set db u { user with failed_attempts := user.failed_attempts + 1 }⟩ := by
  simp only [authenticate_user, hu]
  rw [hl]
  rw [if_neg Bool.false_ne_true, if_pos hw,
    if_neg (by omega : ¬ 5 ≤ user.failed_attempts + 1)]

theorem auth_wrong_lock (hash : String → String) (db : AuthDB) (u pw : String) (now : Int)
    (user : AuthUser) (hu : db u = some user) (hl : is_locked user now = false)
    (hw : user.password ≠ hash pw) (hfa : 5 ≤ user.failed_attempts + 1) :
    authenticate_user hash db u pw now
      = ⟨false, "Account locked due to too many failed attempts. Please try again in 30 minutes.",
          none,
          db_set db u { user with failed_attempts := user.failed_attempts + 1,
                                  locked_until := some (now + 30) }⟩ := by
  simp only [authenticate_user, hu]
  rw [hl]
  rw [if_neg Bool.false_ne_true, if_pos hw, if_pos hfa]

theorem auth_locked (hash : String → String) (db : AuthDB) (u pw : String) (now : Int)
    (user : AuthUser) (hu : db u = some user) (hl : is_locked user now = true) :
    authenticate_user hash db u pw now
      = ⟨false, "Account is locked. Please try again later.", none, db⟩ := by
  simp only [authenticate_user, hu]
  rw [hl]
  rw [if_pos rfl]

theorem auth_success (hash : String → String) (db : AuthDB) (u p : String) (now : Int)
    (user : AuthUser) (hu : db u = some user) (hl : is_locked user now = false)
    (hp : user.password = hash p) :
    authenticate_user hash db u p now
      = ⟨true, "Authentication successful", some (u, now + 1440),
          db_set db u { user with failed_attempts := 0, last_login := some now }⟩ := by
  simp only [authenticate_user, hu]
  rw [hl]
  rw [if_neg Bool.false_ne_true, if_neg (fun h => h hp)]

end AuthManager

/-- C5: starting from an active account (no lockout, zero failed
attempts), five consecutive authenticate calls with a wrong password
leave the account with failed_attempts = 5 and
locked_until = (time of 5th call) + 30 minutes, the fifth call
reporting the lockout message; while locked_until lies in the future
any further call fails with the lockout message and changes nothing,
even with the correct password; and any successful authentication
resets failed_attempts to 0 and sets last_login to the current time. -/
theorem claim_C5 :
    (∀ (hash : String → String) (db : AuthManager.AuthDB) (u pw : String)
        (user : AuthManager.AuthUser) (t1 t2 t3 t4 t5 : Int),
        db u = some user → user.failed_attempts = 0 → user.locked_until = none →
        user.password ≠ hash pw →
        (AuthManager.authenticate_user hash
            (AuthManager.authenticate_user hash
              (AuthManager.authenticate_user hash
                (AuthManager.authenticate_user hash
                  (AuthManager.authenticate_user hash db u pw t1).db u pw t2).db
                u pw t3).db u pw t4).db u pw t5).msg
          = "Account locked due to too many failed attempts. Please try again in 30 minutes."
        ∧ (AuthManager.authenticate_user hash
            (AuthManager.authenticate_user hash
              (AuthManager.authenticate_user hash
                (AuthManager.authenticate_user hash
                  (AuthManager.authenticate_user hash db u pw t1).db u pw t2).db
                u pw t3).db u pw t4).db u pw t5).ok = false
        ∧ (AuthManager.authenticate_user hash
            (AuthManager.authenticate_user hash
              (AuthManager.authenticate_user hash
                (AuthManager.authenticate_user hash
                  (AuthManager.authenticate_user hash db u pw t1).db u pw t2).db
                u pw t3).db u pw t4).db u pw t5).db u
          = some { user with failed_attempts := 5, locked_until := some (t5 + 30) })
    ∧ (∀ (hash : String → String) (db : AuthManager.AuthDB) (u p : String)
        (user : AuthManager.AuthUser) (now t : Int),
        db u = some user → user.locked_until = some t → now < t →
        (AuthManager.authenticate_user hash db u p now).ok = false
        ∧ (AuthManager.authenticate_user hash db u p now).msg
            = "Account is locked. Please try again later."
        ∧ (AuthManager.authenticate_user hash db u p now).db = db)
    ∧ (∀ (hash : String → String) (db : AuthManager.AuthDB) (u p : String)
        (user : AuthManager.AuthUser) (now : Int),
        db u = some user → AuthManager.is_locked user now = false →
        user.password = hash p →
        (AuthManager.authenticate_user hash db u p now).ok = true
        ∧ (AuthManager.authenticate_user hash db u p now).db u
            = some { user with failed_attempts := 0, last_login := some now }) := by
  refine ⟨?_, ?_, ?_⟩
  · intro hash db u pw user t1 t2 t3 t4 t5 hu hfa0 hl hw
    have hl1 : AuthManager.is_locked user t1 = false := AuthManager.is_locked_none user t1 hl
    have h1 := AuthManager.auth_wrong_step hash db u pw t1 user hu hl1 hw (by omega)
    rw [h1]
    set user1 : AuthManager.AuthUser := { user with failed_attempts := user.failed_attempts + 1 }
      with huser1
    have hu1 : AuthManager.db_set db u user1 u = some user1 := AuthManager.db_set_self db u user1
    have h2 := AuthManager.auth_wrong_step hash (AuthManager.db_set db u user1) u pw t2 user1 hu1
      (AuthManager.is_locked_none user1 t2 hl) hw
      (by show user.failed_attempts + 1 + 1 < 5; omega)
    rw [h2]
    set user2 : AuthManager.AuthUser := { user1 with failed_attempts := user1.failed_attempts + 1 }
      with huser2
    have hu2 : AuthManager.db_set (AuthManager.db_set db u user1) u user2 u = some user2 :=
      AuthManager.db_set_self _ u user2
    have h3 := AuthManager.auth_wrong_step hash _ u pw t3 user2 hu2
      (AuthManager.is_locked_none user2 t3 hl) hw
      (by show user.failed_attempts + 1 + 1 + 1 < 5; omega)
    rw [h3]
    set user3 : AuthManager.AuthUser := { user2 with failed_attempts := user2.failed_attempts + 1 }
      with huser3
    have hu3 : AuthManager.db_set (AuthManager.db_set (AuthManager.db_set db u user1) u user2)
        u user3 u = some user3 := AuthManager.db_set_self _ u user3
    have h4 := AuthManager.auth_wrong_step hash _ u pw t4 user3 hu3
      (AuthManager.is_locked_none user3 t4 hl) hw
      (by show user.failed_attempts + 1 + 1 + 1 + 1 < 5; omega)
    rw [h4]
    set user4 : AuthManager.AuthUser := { user3 with failed_attempts := user3.failed_attempts + 1 }
      with huser4
    have hu4 : AuthManager.db_set (AuthManager.db_set (AuthManager.db_set
        (AuthManager.db_set db u user1) u user2) u user3) u user4 u = some user4 :=
      AuthManager.db_set_self _ u user4
    have h5 := AuthManager.auth_wrong_lock hash _ u pw t5 user4 hu4
      (AuthManager.is_locked_none user4 t5 hl) hw
      (by show 5 ≤ user.failed_attempts + 1 + 1 + 1 + 1 + 1; omega)
    rw [h5]
    refine ⟨rfl, rfl, ?_⟩
    simp only [AuthManager.db_set_self]
    have hfinal : user4.failed_attempts + 1 = 5 := by
      show user.failed_attempts + 1 + 1 + 1 + 1 + 1 = 5
      omega
    rw [hfinal]
  · intro hash db u p user now t hu hl ht
    have hlk : AuthManager.is_locked user now = true :=
      AuthManager.is_locked_future user now t hl ht
    rw [AuthManager.auth_locked hash db u p now user hu hlk]
    exact ⟨rfl, rfl, rfl⟩
  · intro hash db u p user now hu hl hp
    rw [AuthManager.auth_success hash db u p now user hu hl hp]
    exact ⟨rfl, AuthManager.db_set_self db u _⟩

theorem claim_C5_witness :
    (AuthManager.authenticate_user (fun s => s)
        (AuthManager.authenticate_user (fun s => s)
          (AuthManager.authenticate_user (fun s => s)
            (AuthManager.authenticate_user (fun s => s)
              (AuthManager.authenticate_user (fun s => s)
                (fun x => if x = "alice" then some ⟨"secret", "a@b", 0, none, 0, none⟩ else none)
                "alice" "wrong" 0).db "alice" "wrong" 0).db
            "alice" "wrong" 0).db "alice" "wrong" 0).db "alice" "wrong" 0).db "alice"
      = some { (⟨"secret", "a@b", 0, none, 0, none⟩ : AuthManager.AuthUser) with
          failed_attempts := 5, locked_until := some ((0 : Int) + 30) }
    ∧ (AuthManager.authenticate_user (fun s => s)
        (fun x => if x = "bob" then some ⟨"pw", "b@b", 0, none, 3, none⟩ else none)
        "bob" "pw" 7).ok = true :=
  ⟨(claim_C5.1 (fun s => s)
      (fun x => if x = "alice" then some ⟨"secret", "a@b", 0, none, 0, none⟩ else none)
      "alice" "wrong" ⟨"secret", "a@b", 0, none, 0, none⟩ 0 0 0 0 0
      rfl rfl rfl (by decide)).2.2,
   (claim_C5.2.2 (fun s => s)
      (fun x => if x = "bob" then some ⟨"pw", "b@b", 0, none, 3, none⟩ else none)
      "bob" "pw" ⟨"pw", "b@b", 0, none, 3, none⟩ 7 rfl rfl rfl).1⟩

/-- C6 amended: validate_study_entry returns true exactly when all
three required keys are present, the date value is a string parsing as
a valid Y-m-d calendar date, the subject value is one of the four
valid subject strings, and the duration value is a string whose first
whitespace token parses as a Python float that is neither below 0 nor
above 24 (NaN compares neither way, so a NaN duration is accepted);
it returns false exactly when a required key is missing, or the date
string does not parse, or the subject is invalid, or the duration
value is not a string, or its first token fails to parse as a float,
or the parsed float compares below 0 or above 24; it raises TypeError
exactly when all keys are present but the date value is not a string,
and IndexError exactly when the checks reach a duration string with
no whitespace-separated tokens. -/
theorem claim_C6 :
    ∀ e : DataManager.Entry,
      (DataManager.validate_study_entry e = .ok true ↔
        (∃ ds sv us,
          List.lookup "Date" e = some (PyJson.str ds)
          ∧ List.lookup "Subject" e = some sv
          ∧ List.lookup "Study Duration" e = some (PyJson.str us)
          ∧ (DataManager.parse_date ds).isSome = true
          ∧ DataManager.subject_in_valid sv = true
          ∧ ∃ t ts x, DataManager.split_tokens us = t :: ts
              ∧ DataManager.parse_float t = some x
              ∧ DataManager.pf_lt x 0 = false ∧ DataManager.pf_gt x 24 = false))
      ∧ (DataManager.validate_study_entry e = .error .typeError ↔
        (∃ dv sv uv,
          List.lookup "Date" e = some dv
          ∧ List.lookup "Subject" e = some sv
          ∧ List.lookup "Study Duration" e = some uv
          ∧ DataManager.is_str dv = false))
      ∧ (DataManager.validate_study_entry e = .error .indexError ↔
        (∃ ds sv us,
          List.lookup "Date" e = some (PyJson.str ds)
          ∧ List.lookup "Subject" e = some sv
          ∧ List.lookup "Study Duration" e = some (PyJson.str us)
          ∧ (DataManager.parse_date ds).isSome = true
          ∧ DataManager.subject_in_valid sv = true
          ∧ DataManager.split_tokens us = []))
      ∧ (DataManager.validate_study_entry e = .ok false ↔
        ((List.lookup "Date" e = none ∨ List.lookup "Subject" e = none
            ∨ List.lookup "Study Duration" e = none)
          ∨ (∃ ds sv uv,
              List.lookup "Date" e = some (PyJson.str ds)
              ∧ List.lookup "Subject" e = some sv
              ∧ List.lookup "Study Duration" e = some uv
              ∧ DataManager.parse_date ds = none)
          ∨ (∃ ds sv uv,
              List.lookup "Date" e = some (PyJson.str ds)
              ∧ List.lookup "Subject" e = some sv
              ∧ List.lookup "Study Duration" e = some uv
              ∧ (DataManager.parse_date ds).isSome = true
              ∧ DataManager.subject_in_valid sv = false)
          ∨ (∃ ds sv uv,
              List.lookup "Date" e = some (PyJson.str ds)
              ∧ List.lookup "Subject" e = some sv
              ∧ List.lookup "Study Duration" e = some uv
              ∧ (DataManager.parse_date ds).isSome = true
              ∧ DataManager.subject_in_valid sv = true
              ∧ DataManager.is_str uv = false)
          ∨ (∃ ds sv us t ts,
              List.lookup "Date" e = some (PyJson.str ds)
              ∧ List.lookup "Subject" e = some sv
              ∧ List.lookup "Study Duration" e = some (PyJson.str us)
              ∧ (DataManager.parse_date ds).isSome = true
              ∧ DataManager.subject_in_valid sv = true
              ∧ DataManager.split_tokens us = t :: ts
              ∧ DataManager.parse_float t = none)
          ∨ (∃ ds sv us t ts x,
              List.lookup "Date" e = some (PyJson.str ds)
              ∧ List.lookup "Subject" e = some sv
              ∧ List.lookup "Study Duration" e = some (PyJson.str us)
              ∧ (DataManager.parse_date ds).isSome = true
              ∧ DataManager.subject_in_valid sv = true
              ∧ DataManager.split_tokens us = t :: ts
              ∧ DataManager.parse_float t = some x
              ∧ (DataManager.pf_lt x 0 || DataManager.pf_gt x 24) = true))) := by
  intro e
  rcases hD : List.lookup "Date" e with _ | dv
  · simp [DataManager.validate_study_entry, hD]
  rcases hS : List.lookup "Subject" e with _ | sv
  · simp [DataManager.validate_study_entry, hD, hS]
  rcases hU : List.lookup "Study Duration" e with _ | uv
  · simp [DataManager.validate_study_entry, hD, hS, hU]
  rcases dv with _ | b | q | ds | xs | kvs
  · simp [DataManager.validate_study_entry, hD, hS, hU, DataManager.is_str]
  · simp [DataManager.validate_study_entry, hD, hS, hU, DataManager.is_str]
  · simp [DataManager.validate_study_entry, hD, hS, hU, DataManager.is_str]
  case str =>
    rcases hpd : DataManager.parse_date ds with _ | pd
    · simp [DataManager.validate_study_entry, hD, hS, hU, hpd, DataManager.is_str]
    rcases hsv : DataManager.subject_in_valid sv
    · simp [DataManager.validate_study_entry, hD, hS, hU, hpd, hsv, DataManager.is_str]
    rcases uv with _ | b2 | q2 | us | xs2 | kvs2
    · simp [DataManager.validate_study_entry, hD, hS, hU, hpd, hsv, DataManager.is_str]
    · simp [DataManager.validate_study_entry, hD, hS, hU, hpd, hsv, DataManager.is_str]
    · simp [DataManager.validate_study_entry, hD, hS, hU, hpd, hsv, DataManager.is_str]
    case str =>
      rcases hsp : DataManager.split_tokens us with _ | ⟨t, ts⟩
      · simp [DataManager.validate_study_entry, hD, hS, hU, hpd, hsv, hsp, DataManager.is_str]
      rcases hpf : DataManager.parse_float t with _ | x
      · simp [DataManager.validate_study_entry, hD, hS, hU, hpd, hsv, hsp, hpf,
          DataManager.is_str]
      rcases hcmp : (DataManager.pf_lt x 0 || DataManager.pf_gt x 24)
      · simp [DataManager.validate_study_entry, hD, hS, hU, hpd, hsv, hsp, hpf, hcmp,
          DataManager.is_str]
        exact Bool.or_eq_false_iff.mp hcmp
      · simp [DataManager.validate_study_entry, hD, hS, hU, hpd, hsv, hsp, hpf, hcmp,
          DataManager.is_str]
        constructor
        · intro hl
          rcases (Bool.or_eq_true _ _).mp hcmp with h | h
          · rw [hl] at h
            exact absurd h Bool.false_ne_true
          · exact h
        · exact (Bool.or_eq_true _ _).mp hcmp
    · simp [DataManager.validate_study_entry, hD, hS, hU, hpd, hsv, DataManager.is_str]
    · simp [DataManager.validate_study_entry, hD, hS, hU, hpd, hsv, DataManager.is_str]
  · simp [DataManager.validate_study_entry, hD, hS, hU, DataManager.is_str]
  · simp [DataManager.validate_study_entry, hD, hS, hU, DataManager.is_str]

theorem claim_C6_witness :
    DataManager.validate_study_entry
        [("Date", PyJson.str "2025-01-01"), ("Subject", PyJson.str "Physics"),
         ("Study Duration", PyJson.str "2 hr")] = .ok true :=
  (claim_C6 _).1.mpr
    ⟨"2025-01-01", PyJson.str "Physics", "2 hr", rfl, rfl, rfl, by decide, by decide,
      ['2'], [['h', 'r']], DataManager.PFloat.fin 2, by decide,
      by with_unfolding_all decide, by with_unfolding_all decide,
      by with_unfolding_all decide⟩

/-- C6 is false as stated: the duration token nan parses as a Python
float that is not in [0,24], so the claim says validate returns false,
but the code accepts it: nan < 0 and nan > 24 are both false in
Python, so the range check passes and validate returns true. -/
theorem claim_C6_cex :
    DataManager.validate_study_entry
        [("Date", PyJson.str "2025-01-01"), ("Subject", PyJson.str "Zoology"),
         ("Study Duration", PyJson.str "nan")] = .ok true
    ∧ DataManager.parse_float ['n', 'a', 'n'] = some .nan
    ∧ DataManager.pf_lt .nan 0 = false ∧ DataManager.pf_gt .nan 24 = false
    ∧ DataManager.validate_study_entry
        [("Date", PyJson.str "2025-01-01"), ("Subject", PyJson.str "Zoology"),
         ("Study Duration", PyJson.str "nan")] ≠ .ok false := by
  decide
